import Mathlib

/- Verification of the ONIVA dispatch / booking-request subsystem.

   The definitions below are a shallow embedding of the JavaScript source:
   DispatchService (findAndAssignDriver, sendAssignmentRequest,
   waitForDriverResponse, acceptBooking, rejectBooking) and the Driver model
   (getNearestDrivers).  The persistent store (PostgreSQL tables
   booking_requests, trips, drivers joined with users) is modelled as the DB
   structure; each SQL statement is translated row by row into list
   operations.  Time is modelled in milliseconds; the one-second poll of
   waitForDriverResponse is modelled as a list of ticks, each tick carrying
   the action the environment performs during that second and whether the
   poll query against the store errors. -/

namespace Oniva

/-- Status column of a booking_requests row. -/
inductive RequestStatus where
  | pending
  | accepted
  | rejected
  | expired
deriving DecidableEq

/-- A booking_requests row, as inserted by sendAssignmentRequest and updated
by acceptBooking, rejectBooking and the expiry update. -/
structure BookingRequest where
  id : Nat
  trip_id : Nat
  driver_id : Nat
  status : RequestStatus
  expires_at : Nat
  created_at : Nat
  rejection_reason : Option String := none
  accepted_at : Option Nat := none
  rejected_at : Option Nat := none
deriving DecidableEq

/-- A trips row, restricted to the columns touched by the dispatch flow. -/
structure Trip where
  id : Nat
  driver_id : Option Nat := none
  status : String := "pending"
deriving DecidableEq

/-- A drivers row joined with its users row, restricted to the columns read
by Driver.getNearestDrivers. -/
structure DriverRow where
  user_id : Nat
  full_name : String
  rating : ℚ
  region : String
  verification_status : String
  is_online : Bool
  user_status : String
  current_latitude : ℝ
  current_longitude : ℝ

/-- A row returned by the getNearestDrivers query: driver columns plus the
computed distance column. -/
structure Candidate where
  user_id : Nat
  full_name : String
  rating : ℚ
  distance : ℝ

/-- The store state: the three tables, the current clock (ms) and the next
fresh booking_requests id. -/
structure DB where
  drivers : List DriverRow := []
  trips : List Trip := []
  requests : List BookingRequest := []
  now : Nat := 0
  nextRequestId : Nat := 1

/-- SQL radians(x). -/
noncomputable def radians (x : ℝ) : ℝ := x * Real.pi / 180

/-- The distance expression computed by the getNearestDrivers query:
6371 * acos(cos(radians(p2)) * cos(radians(dlat)) * cos(radians(dlng) -
radians(p1)) + sin(radians(p2)) * sin(radians(dlat))), where p1 is the first
and p2 the second bound parameter (the query binds [longitude, latitude]). -/
noncomputable def sqlDistance (p1 p2 dlat dlng : ℝ) : ℝ :=
  6371 * Real.arccos (Real.cos (radians p2) * Real.cos (radians dlat) *
    Real.cos (radians dlng - radians p1) +
    Real.sin (radians p2) * Real.sin (radians dlat))

/-- Modelled from the spec (section 4.1): the great-circle (spherical)
distance in km between the point with latitude lat1 / longitude lng1 and the
point with latitude lat2 / longitude lng2. -/
noncomputable def specGreatCircleDistance (lat1 lng1 lat2 lng2 : ℝ) : ℝ :=
  6371 * Real.arccos (Real.cos (radians lat1) * Real.cos (radians lat2) *
    Real.cos (radians lng2 - radians lng1) +
    Real.sin (radians lat1) * Real.sin (radians lat2))

namespace Driver

/-- The WHERE clause of getNearestDrivers: region match, verification
approved, online, account active. -/
def eligibleRow (region : String) (d : DriverRow) : Bool :=
  d.region == region && d.verification_status == "approved" && d.is_online &&
    d.user_status == "active"

open Classical in
/-- The HAVING clause of getNearestDrivers: distance at most maxDistance. -/
noncomputable def withinMax (maxDistance : ℝ) (c : Candidate) : Bool :=
  decide (c.distance ≤ maxDistance)

open Classical in
/-- Driver.getNearestDrivers(latitude, longitude, region, maxDistance): the
query filters by the WHERE clause, computes the distance column with the
bound parameters [longitude, latitude], keeps rows with distance at most
maxDistance (HAVING) and orders by distance ascending. -/
noncomputable def getNearestDrivers (drivers : List DriverRow)
    (latitude longitude : ℝ) (region : String) (maxDistance : ℝ) :
    List Candidate :=
  let rows := (drivers.filter (eligibleRow region)).map fun d =>
    (⟨d.user_id, d.full_name, d.rating,
      sqlDistance longitude latitude d.current_latitude d.current_longitude⟩ :
      Candidate)
  let within := rows.filter (withinMax maxDistance)
  List.insertionSort (fun a b => a.distance ≤ b.distance) within

end Driver

/-- ACCEPT_TIMEOUT = 60000 ms. -/
def ACCEPT_TIMEOUT : Nat := 60000

/-- MAX_ASSIGNMENT_ATTEMPTS = 3. -/
def MAX_ASSIGNMENT_ATTEMPTS : Nat := 3

namespace DispatchService

/-- Row effect of the acceptBooking UPDATE: SET status, accepted_at WHERE
id = requestId AND driver_id = driverId.  Note that the WHERE clause does not
test the current status or expires_at. -/
def acceptUpd (requestId driverId now : Nat) (r : BookingRequest) :
    BookingRequest :=
  if r.id == requestId && r.driver_id == driverId then
    {r with status := .accepted, accepted_at := some now}
  else r

/-- DispatchService.acceptBooking(requestId, driverId): run the conditional
UPDATE on booking_requests; if no row matched, throw; otherwise take the
first returned row and unconditionally update the referenced trip. -/
def acceptBooking (db : DB) (requestId driverId : Nat) :
    Except String (BookingRequest × DB) :=
  let updated := db.requests.map (acceptUpd requestId driverId db.now)
  match updated.filter (fun r => r.id == requestId && r.driver_id == driverId) with
  | [] => .error "Booking request not found or invalid driver"
  | request :: _ =>
    .ok (request,
      {db with
        requests := updated,
        trips := db.trips.map fun t =>
          if t.id == request.trip_id then
            {t with driver_id := some driverId, status := "accepted"}
          else t})

/-- Row effect of the rejectBooking UPDATE: SET status, rejection_reason,
rejected_at WHERE id = requestId AND driver_id = driverId. -/
def rejectUpd (requestId driverId : Nat) (reason : String) (now : Nat)
    (r : BookingRequest) : BookingRequest :=
  if r.id == requestId && r.driver_id == driverId then
    {r with
      status := .rejected,
      rejection_reason := some reason,
      rejected_at := some now}
  else r

/-- DispatchService.rejectBooking(requestId, driverId, reason). -/
def rejectBooking (db : DB) (requestId driverId : Nat) (reason : String) :
    Except String (BookingRequest × DB) :=
  let updated := db.requests.map (rejectUpd requestId driverId reason db.now)
  match updated.filter (fun r => r.id == requestId && r.driver_id == driverId) with
  | [] => .error "Booking request not found"
  | request :: _ => .ok (request, {db with requests := updated})

/-- The raw expiry UPDATE issued by waitForDriverResponse once the deadline
has passed: SET status = expired WHERE id = requestId. -/
def expiryMark (db : DB) (requestId : Nat) : DB :=
  {db with requests := db.requests.map fun r =>
    if r.id == requestId then {r with status := .expired} else r}

end DispatchService

/-- State change of acceptBooking, absorbing the thrown error (the UPDATE
matched no row, so the store is unchanged). -/
def acceptDB (db : DB) (requestId driverId : Nat) : DB :=
  match DispatchService.acceptBooking db requestId driverId with
  | .ok pr => pr.2
  | .error _ => db

/-- State change of rejectBooking, absorbing the thrown error. -/
def rejectDB (db : DB) (requestId driverId : Nat) (reason : String) : DB :=
  match DispatchService.rejectBooking db requestId driverId reason with
  | .ok pr => pr.2
  | .error _ => db

/-- Whether acceptBooking returns rather than throws. -/
def acceptSucceeds (db : DB) (requestId driverId : Nat) : Bool :=
  match DispatchService.acceptBooking db requestId driverId with
  | .ok _ => true
  | .error _ => false

/-- External trip cancellation (the surrounding trip flow setting the trips
row status to cancelled). -/
def cancelTripStatus (db : DB) (tripId : Nat) : DB :=
  {db with trips := db.trips.map fun t =>
    if t.id == tripId then {t with status := "cancelled"} else t}

/-- SELECT status FROM booking_requests WHERE id = requestId (first row). -/
def findRequest (db : DB) (requestId : Nat) : Option BookingRequest :=
  db.requests.find? fun r => r.id == requestId

/-- Status of the booking request with the given id, if present. -/
def statusOf (db : DB) (requestId : Nat) : Option RequestStatus :=
  (findRequest db requestId).map fun r => r.status

/-- Status of the trips row with the given id, if present. -/
def tripStatusOf (db : DB) (tripId : Nat) : Option String :=
  (db.trips.find? fun t => t.id == tripId).map fun t => t.status

/-- An action the environment (a driver-facing endpoint, another dispatch
flow, or the trip flow) performs during one poll interval. -/
inductive EnvAct where
  | idle
  | accept (requestId driverId : Nat)
  | reject (requestId driverId : Nat) (reason : String)
  | expire (requestId : Nat)
  | cancelTrip (tripId : Nat)

/-- Apply an environment action to the store. -/
def applyEnv (a : EnvAct) (db : DB) : DB :=
  match a with
  | .idle => db
  | .accept rid did => acceptDB db rid did
  | .reject rid did reason => rejectDB db rid did reason
  | .expire rid => DispatchService.expiryMark db rid
  | .cancelTrip tid => cancelTripStatus db tid

/-- One second of wall time inside waitForDriverResponse: what the
environment does, and whether the poll query against the store errors. -/
structure Tick where
  act : EnvAct
  pollErr : Bool

/-- A tick in which nothing happens and the poll succeeds. -/
def quietTick : Tick := ⟨.idle, false⟩

/-- A tick in which nothing happens but the poll query throws. -/
def errTick : Tick := ⟨.idle, true⟩

/-- Result of a run of waitForDriverResponse: the value the promise resolved
with (none when the interval is still running after the given ticks), the
final store, the tick at which it resolved, and the store states it passed
through. -/
structure WaitResult where
  resolved : Option Bool
  db : DB
  ticks : Nat
  trace : List DB

/-- DispatchService.waitForDriverResponse(requestId, timeout), as the
setInterval callback run once per second (tick = 1, 2, ...; the elapsed time
Date.now() - startTime at tick n is n * 1000 ms).  Each tick first applies
the environment action; an erroring poll is caught, logged and skipped;
otherwise the callback resolves true on accepted, false on rejected or on a
missing row, and after the timeout fires the expiry UPDATE and resolves
false.  The promise never resolves if the ticks run out first. -/
def waitLoop (requestId timeout : Nat) :
    List Tick → DB → Nat → WaitResult
  | [], db, tick => ⟨none, db, tick - 1, []⟩
  | t :: ts, db, tick =>
    let db1 := applyEnv t.act {db with now := db.now + 1000}
    if t.pollErr then
      let w := waitLoop requestId timeout ts db1 (tick + 1)
      ⟨w.resolved, w.db, w.ticks, db1 :: w.trace⟩
    else
      match findRequest db1 requestId with
      | none => ⟨some false, db1, tick, [db1]⟩
      | some r =>
        if r.status = .accepted then ⟨some true, db1, tick, [db1]⟩
        else if r.status = .rejected then ⟨some false, db1, tick, [db1]⟩
        else if timeout < 1000 * tick then
          let db2 := DispatchService.expiryMark db1 requestId
          ⟨some false, db2, tick, [db1, db2]⟩
        else
          let w := waitLoop requestId timeout ts db1 (tick + 1)
          ⟨w.resolved, w.db, w.ticks, db1 :: w.trace⟩

/-- Environment of one assignment attempt: whether the INSERT INTO
booking_requests throws, and the ticks of the subsequent wait. -/
structure AttemptEnv where
  insertFails : Bool
  ticks : List Tick

/-- Result of sendAssignmentRequest: the boolean it returns (none when the
wait never resolves), the final store and the store states passed through. -/
structure AttemptResult where
  accepted : Option Bool
  db : DB
  trace : List DB

/-- The INSERT INTO booking_requests of sendAssignmentRequest: status
pending, expires_at = NOW() + 1 minute. -/
def mkRequest (id tripId driverId now : Nat) : BookingRequest :=
  {id := id, trip_id := tripId, driver_id := driverId, status := .pending,
    expires_at := now + 60000, created_at := now}

/-- DispatchService.sendAssignmentRequest(tripId, driverId): create the
pending booking request (a store error is caught and returns false), then
wait for the driver response with ACCEPT_TIMEOUT. -/
def sendAssignmentRequest (db : DB) (tripId driverId : Nat)
    (env : AttemptEnv) : AttemptResult :=
  if env.insertFails then ⟨some false, db, []⟩
  else
    let req := mkRequest db.nextRequestId tripId driverId db.now
    let db1 := {db with
      requests := db.requests ++ [req],
      nextRequestId := db.nextRequestId + 1}
    let w := waitLoop req.id ACCEPT_TIMEOUT env.ticks db1 1
    ⟨w.resolved, w.db, db1 :: w.trace⟩

/-- The object findAndAssignDriver returns. -/
structure Outcome where
  success : Bool
  message : String
  driverId : Option Nat := none
  driverName : Option String := none
  driverRating : Option ℚ := none
  distance : Option ℝ := none

/-- Result of the dispatch loop: the returned outcome (none when a wait
never resolves), the final store and the store states passed through. -/
structure LoopResult where
  outcome : Option Outcome
  db : DB
  trace : List DB

/-- Outcome returned when the candidate loop ends without an acceptance. -/
def noAcceptOutcome : Outcome where
  success := false
  message := "Unable to find available driver. Please try again."

/-- Outcome returned when a candidate accepts. -/
def assignedOutcome (c : Candidate) : Outcome where
  success := true
  message := "Driver assigned successfully"
  driverId := some c.user_id
  driverName := some c.full_name
  driverRating := some c.rating
  distance := some c.distance

/-- Outcome returned when getNearestDrivers finds no candidates. -/
def noDriversOutcome : Outcome where
  success := false
  message := "No drivers available in your area"

/-- The candidate loop of findAndAssignDriver: for each candidate in order,
send an assignment request; return on the first accepted one; after the last
candidate return the unable-to-find outcome. -/
def assignLoop (tripId : Nat) :
    List (Candidate × AttemptEnv) → DB → LoopResult
  | [], db => ⟨some noAcceptOutcome, db, []⟩
  | (c, env) :: rest, db =>
    let a := sendAssignmentRequest db tripId c.user_id env
    match a.accepted with
    | some true => ⟨some (assignedOutcome c), a.db, a.trace⟩
    | some false =>
      let r := assignLoop tripId rest a.db
      ⟨r.outcome, r.db, a.trace ++ r.trace⟩
    | none => ⟨none, a.db, a.trace⟩

/-- The tripData argument of findAndAssignDriver. -/
structure TripData where
  tripId : Nat
  pickupLat : ℝ
  pickupLng : ℝ
  region : String
  maxDistance : ℝ := 5

/-- DispatchService.findAndAssignDriver(tripData): query the nearest drivers
(the source passes pickupLng as the latitude argument and pickupLat as the
longitude argument of Driver.getNearestDrivers), return the no-drivers
outcome when none qualify, otherwise attempt the first
MAX_ASSIGNMENT_ATTEMPTS candidates in order. -/
noncomputable def findAndAssignDriver (db : DB) (td : TripData)
    (envs : List AttemptEnv) : LoopResult :=
  let availableDrivers := Driver.getNearestDrivers db.drivers
    td.pickupLng td.pickupLat td.region td.maxDistance
  if availableDrivers.length = 0 then
    ⟨some noDriversOutcome, db, []⟩
  else
    assignLoop td.tripId
      ((availableDrivers.take MAX_ASSIGNMENT_ATTEMPTS).zip envs) db

/-- Number of pending booking requests of a given trip. -/
def pendingForTrip (db : DB) (tripId : Nat) : Nat :=
  db.requests.countP fun r =>
    decide (r.trip_id = tripId ∧ r.status = RequestStatus.pending)

/-- Well-formedness of the ids of the requests table: pairwise distinct and
below the next fresh id. -/
def UniqIds (db : DB) : Prop :=
  (db.requests.map fun r => r.id).Nodup ∧
    ∀ r ∈ db.requests, r.id < db.nextRequestId

/-- Every pending request of the trip is the one with the given id. -/
def onlyPending (tripId rid : Nat) (db : DB) : Prop :=
  ∀ r ∈ db.requests, r.trip_id = tripId → r.status = .pending → r.id = rid

/- Concrete store states and schedules used by the closed theorems below. -/

/-- A request that is already expired, with its expiry in the past. -/
def reqExpired : BookingRequest :=
  {id := 1, trip_id := 10, driver_id := 5, status := .expired,
    expires_at := 60000, created_at := 0}

/-- Store for the accept-after-expiry counterexample: the clock is past the
expiry of the request. -/
def dbExpired : DB :=
  {trips := [{id := 10}], requests := [reqExpired], now := 70000,
    nextRequestId := 2}

/-- A request that was already rejected. -/
def reqRejected : BookingRequest :=
  {id := 1, trip_id := 10, driver_id := 5, status := .rejected,
    expires_at := 60000, created_at := 0}

/-- Store with a single rejected request. -/
def dbRejected : DB :=
  {trips := [{id := 10}], requests := [reqRejected], now := 70000,
    nextRequestId := 2}

/-- A pending request offered to driver 5. -/
def reqPending : BookingRequest :=
  {id := 1, trip_id := 10, driver_id := 5, status := .pending,
    expires_at := 60000, created_at := 0}

/-- Store with a single pending request. -/
def dbPending : DB :=
  {trips := [{id := 10}], requests := [reqPending], now := 0,
    nextRequestId := 2}

/-- Trip record used for the trip-overwrite witness: already cancelled and
bound to a different driver. -/
def tripCancelled : Trip :=
  {id := 10, driver_id := some 77, status := "cancelled"}

/-- Store whose trip is cancelled and bound to driver 77 while its rejected
request references driver 5. -/
def dbCancelledTrip : DB :=
  {trips := [tripCancelled], requests := [reqRejected], now := 70000,
    nextRequestId := 2}

/-- An eligible (approved, online, active) driver of region kigali located
exactly at latitude 0, longitude 90. -/
noncomputable def drvAtPickup : DriverRow :=
  {user_id := 7, full_name := "nearest", rating := 5, region := "kigali",
    verification_status := "approved", is_online := true,
    user_status := "active", current_latitude := 0, current_longitude := 90}

/-- Store whose only driver sits exactly at the pickup point used below. -/
noncomputable def dbGeo : DB := {drivers := [drvAtPickup]}

/-- Trip data with pickup at latitude 0, longitude 90 (default maxDistance
5 km). -/
noncomputable def tdGeo : TripData :=
  {tripId := 1, pickupLat := 0, pickupLng := 90, region := "kigali"}

/-- Empty store. -/
def dbEmpty : DB := {}

/-- Trip data with pickup at the origin. -/
noncomputable def tdZero : TripData :=
  {tripId := 1, pickupLat := 0, pickupLng := 0, region := "kigali"}

/-- First candidate (driver 5) of the cancellation scenario. -/
noncomputable def candA : Candidate :=
  {user_id := 5, full_name := "a", rating := 4, distance := 0}

/-- Second candidate (driver 6) of the cancellation scenario. -/
noncomputable def candB : Candidate :=
  {user_id := 6, full_name := "b", rating := 3, distance := 1}

/-- Attempt environment in which the trip is cancelled during the first
poll interval and the driver never answers: 61 poll ticks in total. -/
def envCancelThenWait : AttemptEnv :=
  ⟨false, ⟨.cancelTrip 9, false⟩ :: List.replicate 60 quietTick⟩

/-- Attempt environment in which driver 6 accepts request 101 during the
first poll interval. -/
def envAcceptSecond : AttemptEnv :=
  ⟨false, [⟨.accept 101 6, false⟩]⟩

/-- Store holding trip 9 and no requests; the next request id is 100. -/
def dbTrip9 : DB := {trips := [{id := 9}], now := 0, nextRequestId := 100}

/-- Attempt environment in which driver 5 accepts request 100 during the
first poll interval. -/
def envAcceptFirst : AttemptEnv :=
  ⟨false, [⟨.accept 100 5, false⟩]⟩

/-- Store dbTrip9 right after the first assignment request (id 100, driver
5) has been created. -/
def dbTrip9Req : DB :=
  {trips := [{id := 9}], requests := [mkRequest 100 9 5 0], now := 0,
    nextRequestId := 101}

/- Lemmas about the row-level update functions. -/

namespace DispatchService

lemma acceptUpd_id (rid did now : Nat) (r : BookingRequest) :
    (acceptUpd rid did now r).id = r.id := by
  unfold acceptUpd; split <;> rfl

lemma acceptUpd_trip_id (rid did now : Nat) (r : BookingRequest) :
    (acceptUpd rid did now r).trip_id = r.trip_id := by
  unfold acceptUpd; split <;> rfl

lemma acceptUpd_driver_id (rid did now : Nat) (r : BookingRequest) :
    (acceptUpd rid did now r).driver_id = r.driver_id := by
  unfold acceptUpd; split <;> rfl

lemma acceptUpd_pending (rid did now : Nat) (r : BookingRequest) :
    (acceptUpd rid did now r).status = .pending → r.status = .pending := by
  unfold acceptUpd; split <;> simp

lemma rejectUpd_id (rid did : Nat) (reason : String) (now : Nat)
    (r : BookingRequest) : (rejectUpd rid did reason now r).id = r.id := by
  unfold rejectUpd; split <;> rfl

lemma rejectUpd_trip_id (rid did : Nat) (reason : String) (now : Nat)
    (r : BookingRequest) :
    (rejectUpd rid did reason now r).trip_id = r.trip_id := by
  unfold rejectUpd; split <;> rfl

lemma rejectUpd_driver_id (rid did : Nat) (reason : String) (now : Nat)
    (r : BookingRequest) :
    (rejectUpd rid did reason now r).driver_id = r.driver_id := by
  unfold rejectUpd; split <;> rfl

lemma rejectUpd_pending (rid did : Nat) (reason : String) (now : Nat)
    (r : BookingRequest) :
    (rejectUpd rid did reason now r).status = .pending →
      r.status = .pending := by
  unfold rejectUpd; split <;> simp

/-- If acceptBooking returns, its row set is the mapped update, the returned
row comes from the matched rows, and the trip table got the unconditional
trip update keyed by the returned row. -/
lemma acceptBooking_ok_shape (db : DB) (rid did : Nat)
    (pr : BookingRequest × DB)
    (h : acceptBooking db rid did = .ok pr) :
    pr.2.requests = db.requests.map (acceptUpd rid did db.now) ∧
    pr.2.trips = db.trips.map (fun t =>
      if t.id == pr.1.trip_id then
        {t with driver_id := some did, status := "accepted"}
      else t) ∧
    pr.1 ∈ db.requests.map (acceptUpd rid did db.now) ∧
    pr.1.id = rid ∧ pr.1.driver_id = did := by
  simp only [acceptBooking] at h
  revert h
  cases hfil : (db.requests.map (acceptUpd rid did db.now)).filter
      (fun r => r.id == rid && r.driver_id == did) with
  | nil => intro h; exact absurd h (by simp)
  | cons q rest =>
    intro h
    have hq : q ∈ (db.requests.map (acceptUpd rid did db.now)).filter
        (fun r => r.id == rid && r.driver_id == did) := by
      rw [hfil]; exact List.mem_cons_self q rest
    have hqmem := List.mem_of_mem_filter hq
    have hqpred := List.of_mem_filter hq
    simp only [Bool.and_eq_true, beq_iff_eq] at hqpred
    have hpr : pr = (q, {db with
        requests := db.requests.map (acceptUpd rid did db.now),
        trips := db.trips.map fun t =>
          if t.id == q.trip_id then
            {t with driver_id := some did, status := "accepted"}
          else t}) := by
      injection h with h2
      exact h2.symm
    subst hpr
    exact ⟨rfl, rfl, hqmem, hqpred.1, hqpred.2⟩

/-- If some request matches both ids, acceptBooking returns. -/
lemma acceptBooking_isOk (db : DB) (rid did : Nat) (r : BookingRequest)
    (hr : r ∈ db.requests) (h1 : r.id = rid) (h2 : r.driver_id = did) :
    ∃ pr, acceptBooking db rid did = .ok pr := by
  simp only [acceptBooking]
  cases hfil : (db.requests.map (acceptUpd rid did db.now)).filter
      (fun r => r.id == rid && r.driver_id == did) with
  | nil =>
    exfalso
    rw [List.filter_eq_nil_iff] at hfil
    refine hfil (acceptUpd rid did db.now r) (List.mem_map_of_mem _ hr) ?_
    simp [acceptUpd_id, acceptUpd_driver_id, h1, h2]
  | cons q rest => exact ⟨_, rfl⟩

/-- If no request matches both ids, acceptBooking throws. -/
lemma acceptBooking_error (db : DB) (rid did : Nat)
    (h : ∀ r ∈ db.requests, ¬(r.id = rid ∧ r.driver_id = did)) :
    acceptBooking db rid did =
      .error "Booking request not found or invalid driver" := by
  simp only [acceptBooking]
  have hfil : (db.requests.map (acceptUpd rid did db.now)).filter
      (fun r => r.id == rid && r.driver_id == did) = [] := by
    rw [List.filter_eq_nil_iff]
    intro a ha
    obtain ⟨r0, hr0, rfl⟩ := List.mem_map.mp ha
    simp only [Bool.and_eq_true, beq_iff_eq, acceptUpd_id, acceptUpd_driver_id,
      not_and]
    intro ha1 ha2
    exact h r0 hr0 ⟨ha1, ha2⟩
  rw [hfil]

/-- Any row of the updated table that matches both ids has been set to
accepted. -/
lemma accept_matched_status (db : DB) (rid did : Nat) (q : BookingRequest)
    (hq : q ∈ db.requests.map (acceptUpd rid did db.now))
    (h1 : q.id = rid) (h2 : q.driver_id = did) :
    q.status = .accepted := by
  obtain ⟨r0, hr0, rfl⟩ := List.mem_map.mp hq
  rw [acceptUpd_id] at h1
  rw [acceptUpd_driver_id] at h2
  unfold acceptUpd
  rw [if_pos]
  simp [h1, h2]

/-- If rejectBooking returns, its row set is the mapped update. -/
lemma rejectBooking_ok_requests (db : DB) (rid did : Nat) (reason : String)
    (pr : BookingRequest × DB)
    (h : rejectBooking db rid did reason = .ok pr) :
    pr.2.requests = db.requests.map (rejectUpd rid did reason db.now) := by
  simp only [rejectBooking] at h
  revert h
  cases hfil : (db.requests.map (rejectUpd rid did reason db.now)).filter
      (fun r => r.id == rid && r.driver_id == did) with
  | nil => intro h; exact absurd h (by simp)
  | cons q rest =>
    intro h
    injection h with h2
    rw [← h2]

end DispatchService

/-- Case analysis of the state change of an absorbed acceptBooking call. -/
lemma acceptDB_requests_cases (db : DB) (rid did : Nat) :
    (acceptDB db rid did).requests = db.requests ∨
    (acceptDB db rid did).requests =
      db.requests.map (DispatchService.acceptUpd rid did db.now) := by
  unfold acceptDB
  cases hab : DispatchService.acceptBooking db rid did with
  | error e => left; rfl
  | ok pr =>
    right
    exact (DispatchService.acceptBooking_ok_shape db rid did pr hab).1

/-- Case analysis of the state change of an absorbed rejectBooking call. -/
lemma rejectDB_requests_cases (db : DB) (rid did : Nat) (reason : String) :
    (rejectDB db rid did reason).requests = db.requests ∨
    (rejectDB db rid did reason).requests =
      db.requests.map (DispatchService.rejectUpd rid did reason db.now) := by
  unfold rejectDB
  cases hab : DispatchService.rejectBooking db rid did reason with
  | error e => left; rfl
  | ok pr =>
    right
    exact DispatchService.rejectBooking_ok_requests db rid did reason pr hab

/-- Every environment action maps the request rows pointwise through a
function that preserves id, trip_id and driver_id and never writes the
pending status. -/
lemma applyEnv_shape (a : EnvAct) (db : DB) :
    ∃ g : BookingRequest → BookingRequest,
      (applyEnv a db).requests = db.requests.map g ∧
      (∀ r, (g r).id = r.id ∧ (g r).trip_id = r.trip_id ∧
        (g r).driver_id = r.driver_id ∧
        ((g r).status = .pending → r.status = .pending)) := by
  cases a with
  | idle =>
    exact ⟨id, (List.map_id _).symm, fun r => ⟨rfl, rfl, rfl, fun h => h⟩⟩
  | accept rid did =>
    rcases acceptDB_requests_cases db rid did with h | h
    · exact ⟨id, by rw [List.map_id]; exact h,
        fun r => ⟨rfl, rfl, rfl, fun hh => hh⟩⟩
    · exact ⟨_, h, fun r => ⟨DispatchService.acceptUpd_id rid did db.now r,
        DispatchService.acceptUpd_trip_id rid did db.now r,
        DispatchService.acceptUpd_driver_id rid did db.now r,
        DispatchService.acceptUpd_pending rid did db.now r⟩⟩
  | reject rid did reason =>
    rcases rejectDB_requests_cases db rid did reason with h | h
    · exact ⟨id, by rw [List.map_id]; exact h,
        fun r => ⟨rfl, rfl, rfl, fun hh => hh⟩⟩
    · exact ⟨_, h, fun r => ⟨DispatchService.rejectUpd_id rid did reason db.now r,
        DispatchService.rejectUpd_trip_id rid did reason db.now r,
        DispatchService.rejectUpd_driver_id rid did reason db.now r,
        DispatchService.rejectUpd_pending rid did reason db.now r⟩⟩
  | expire rid =>
    refine ⟨fun r => if r.id == rid then {r with status := .expired} else r,
      rfl, fun r => ?_⟩
    refine ⟨?_, ?_, ?_, ?_⟩ <;>
      (dsimp only; split <;> simp)
  | cancelTrip tid =>
    exact ⟨id, (List.map_id _).symm, fun r => ⟨rfl, rfl, rfl, fun h => h⟩⟩

/-- C1 counterexample: the request is already expired and the clock is past
its expiresAt, yet acceptBooking(1, 5) succeeds and flips the status to
accepted instead of failing with a conflict and leaving the status
unchanged. -/
theorem c1_counterexample :
    statusOf dbExpired 1 = some .expired ∧
    dbExpired.now = 70000 ∧
    (findRequest dbExpired 1).map (fun r => r.expires_at) = some 60000 ∧
    acceptSucceeds dbExpired 1 5 = true ∧
    statusOf (acceptDB dbExpired 1 5) 1 = some .accepted := by
  decide

/-- C1 (amended): acceptBooking(requestId, driverId) transitions the request
to accepted whenever some request matches both ids, regardless of its
current status and of expiresAt; only when no request matches both ids does
it fail, with the not-found error. -/
theorem c1_accept_ignores_guards :
    (∀ (db : DB) (rid did : Nat) (r : BookingRequest), r ∈ db.requests →
      r.id = rid → r.driver_id = did →
      ∃ pr, DispatchService.acceptBooking db rid did = .ok pr ∧
        ∀ q ∈ pr.2.requests, q.id = rid → q.driver_id = did →
          q.status = .accepted) ∧
    (∀ (db : DB) (rid did : Nat),
      (∀ r ∈ db.requests, ¬(r.id = rid ∧ r.driver_id = did)) →
      DispatchService.acceptBooking db rid did =
        .error "Booking request not found or invalid driver") := by
  constructor
  · intro db rid did r hr h1 h2
    obtain ⟨pr, hok⟩ := DispatchService.acceptBooking_isOk db rid did r hr h1 h2
    obtain ⟨hreq, -, -, -, -⟩ :=
      DispatchService.acceptBooking_ok_shape db rid did pr hok
    refine ⟨pr, hok, ?_⟩
    intro q hq hq1 hq2
    rw [hreq] at hq
    exact DispatchService.accept_matched_status db rid did q hq hq1 hq2
  · exact DispatchService.acceptBooking_error

/-- C1 witness: the amended theorem applied to the expired request (accept
succeeds although the request is expired and past its deadline) and to a
non-matching id (accept throws). -/
theorem c1_accept_ignores_guards_witness :
    (∃ pr, DispatchService.acceptBooking dbExpired 1 5 = .ok pr ∧
      ∀ q ∈ pr.2.requests, q.id = 1 → q.driver_id = 5 →
        q.status = .accepted) ∧
    DispatchService.acceptBooking dbExpired 2 5 =
      .error "Booking request not found or invalid driver" :=
  ⟨c1_accept_ignores_guards.1 dbExpired 1 5 reqExpired (by decide) rfl rfl,
    c1_accept_ignores_guards.2 dbExpired 2 5 (by decide)⟩

/-- C2 counterexample: a request in the terminal status rejected is moved
back out of it by acceptBooking, so terminal statuses are not absorbing. -/
theorem c2_counterexample :
    statusOf dbRejected 1 = some .rejected ∧
    acceptSucceeds dbRejected 1 5 = true ∧
    statusOf (acceptDB dbRejected 1 5) 1 = some .accepted := by
  decide

/-- C2 (amended): the pending status is never re-entered — every operation
(acceptBooking, rejectBooking, the expiry update, trip cancellation) maps
the request rows pointwise so that a row that is pending afterwards was
already pending before; but terminal statuses are not absorbing:
acceptBooking overwrites even a rejected request whenever both ids match. -/
theorem c2_pending_never_reentered :
    (∀ (a : EnvAct) (db : DB),
      List.Forall₂ (fun r q => q.status = .pending → r.status = .pending)
        db.requests (applyEnv a db).requests) ∧
    (∀ (db : DB) (rid did : Nat) (r : BookingRequest), r ∈ db.requests →
      r.id = rid → r.driver_id = did → r.status = .rejected →
      ∃ pr, DispatchService.acceptBooking db rid did = .ok pr ∧
        ∀ q ∈ pr.2.requests, q.id = rid → q.driver_id = did →
          q.status = .accepted) := by
  constructor
  · intro a db
    obtain ⟨g, hg, hpt⟩ := applyEnv_shape a db
    rw [hg]
    rw [List.forall₂_map_right_iff]
    rw [List.forall₂_same]
    intro r _
    exact (hpt r).2.2.2
  · intro db rid did r hr h1 h2 _
    obtain ⟨pr, hok⟩ := DispatchService.acceptBooking_isOk db rid did r hr h1 h2
    obtain ⟨hreq, -, -, -, -⟩ :=
      DispatchService.acceptBooking_ok_shape db rid did pr hok
    refine ⟨pr, hok, ?_⟩
    intro q hq hq1 hq2
    rw [hreq] at hq
    exact DispatchService.accept_matched_status db rid did q hq hq1 hq2

/-- C2 witness: the amended theorem applied to the expiry update on the
pending store and to the rejected request being re-accepted. -/
theorem c2_pending_never_reentered_witness :
    List.Forall₂ (fun r q => q.status = .pending → r.status = .pending)
      dbPending.requests (applyEnv (.expire 1) dbPending).requests ∧
    ∃ pr, DispatchService.acceptBooking dbRejected 1 5 = .ok pr ∧
      ∀ q ∈ pr.2.requests, q.id = 1 → q.driver_id = 5 →
        q.status = .accepted :=
  ⟨c2_pending_never_reentered.1 (.expire 1) dbPending,
    c2_pending_never_reentered.2 dbRejected 1 5 reqRejected (by decide)
      rfl rfl rfl⟩

/-- C3 counterexample: on a pending request past its deadline, the expiry
update of waitForDriverResponse succeeds (the wait resolves false and the
request reads expired) and a subsequent acceptBooking for the same request
also succeeds — the expiry sweep and the accept both succeed, instead of
exactly one succeeding and the other failing with a conflict. -/
theorem c3_counterexample :
    (waitLoop 1 60000 (List.replicate 61 quietTick) dbPending 1).resolved =
      some false ∧
    statusOf (waitLoop 1 60000 (List.replicate 61 quietTick) dbPending 1).db 1 =
      some .expired ∧
    acceptSucceeds
      (waitLoop 1 60000 (List.replicate 61 quietTick) dbPending 1).db 1 5 =
      true ∧
    statusOf (acceptDB
      (waitLoop 1 60000 (List.replicate 61 quietTick) dbPending 1).db 1 5) 1 =
      some .accepted := by
  decide

/-- C3 (amended): the transitions are not mutually exclusive — the accept
guard checks only the two ids, so after the expiry update has marked a
request expired, a matching acceptBooking still succeeds and overwrites the
status to accepted; both operations report success on the same request. -/
theorem c3_accept_after_expiry :
    ∀ (db : DB) (rid did : Nat) (r : BookingRequest), r ∈ db.requests →
      r.id = rid → r.driver_id = did → r.status = .expired →
      ∃ pr, DispatchService.acceptBooking db rid did = .ok pr ∧
        ∀ q ∈ pr.2.requests, q.id = rid → q.driver_id = did →
          q.status = .accepted := by
  intro db rid did r hr h1 h2 _
  obtain ⟨pr, hok⟩ := DispatchService.acceptBooking_isOk db rid did r hr h1 h2
  obtain ⟨hreq, -, -, -, -⟩ :=
    DispatchService.acceptBooking_ok_shape db rid did pr hok
  refine ⟨pr, hok, ?_⟩
  intro q hq hq1 hq2
  rw [hreq] at hq
  exact DispatchService.accept_matched_status db rid did q hq hq1 hq2

/-- C3 witness: the amended theorem applied to the store produced by the
expiry sweep of a full 61-tick wait on the pending request. -/
theorem c3_accept_after_expiry_witness :
    ∃ pr, DispatchService.acceptBooking
        (waitLoop 1 60000 (List.replicate 61 quietTick) dbPending 1).db 1 5 =
        .ok pr ∧
      ∀ q ∈ pr.2.requests, q.id = 1 → q.driver_id = 5 →
        q.status = .accepted :=
  c3_accept_after_expiry
    (waitLoop 1 60000 (List.replicate 61 quietTick) dbPending 1).db 1 5
    {id := 1, trip_id := 10, driver_id := 5, status := .expired,
      expires_at := 60000, created_at := 0}
    (by decide) rfl rfl rfl

/-- C10: whenever acceptBooking matches a request (request id and driver id
both match), it returns successfully and unconditionally overwrites the
referenced trip row: driver_id becomes the accepting driver and status
becomes accepted, whatever the trip contained before. -/
theorem c10_trip_overwrite :
    ∀ (db : DB) (rid did : Nat) (r : BookingRequest), r ∈ db.requests →
      r.id = rid → r.driver_id = did →
      ∃ pr, DispatchService.acceptBooking db rid did = .ok pr ∧
        ∀ t ∈ pr.2.trips, t.id = pr.1.trip_id →
          t.driver_id = some did ∧ t.status = "accepted" := by
  intro db rid did r hr h1 h2
  obtain ⟨pr, hok⟩ := DispatchService.acceptBooking_isOk db rid did r hr h1 h2
  obtain ⟨-, htrips, -, -, -⟩ :=
    DispatchService.acceptBooking_ok_shape db rid did pr hok
  refine ⟨pr, hok, ?_⟩
  intro t ht htid
  rw [htrips] at ht
  obtain ⟨t0, ht0, rfl⟩ := List.mem_map.mp ht
  by_cases hc : t0.id = pr.1.trip_id
  · constructor <;> simp [hc]
  · exfalso
    rw [if_neg (by simp [hc])] at htid
    exact hc htid

/-- The candidate query, invoked exactly as findAndAssignDriver invokes it
for the pickup (lat 0, lng 90) — latitude argument 90 = pickupLng and
longitude argument 0 = pickupLat — drops the driver standing at the pickup
point, because the computed distance is the great-circle distance from the
transposed point, 6371 * pi / 2 km. -/
lemma getNearestDrivers_swapped_empty :
    Driver.getNearestDrivers [drvAtPickup] 90 0 "kigali" 5 = [] := by
  have helig : Driver.eligibleRow "kigali" drvAtPickup = true := by decide
  have hkey : sqlDistance 0 90 drvAtPickup.current_latitude
      drvAtPickup.current_longitude = 6371 * (Real.pi / 2) := by
    have h90 : radians 90 = Real.pi / 2 := by unfold radians; ring
    have h0 : radians 0 = 0 := by unfold radians; ring
    show sqlDistance 0 90 0 90 = _
    unfold sqlDistance
    rw [h90, h0]
    simp
  have hfar : ¬ ((6371 : ℝ) * (Real.pi / 2) ≤ 5) := by
    have h3 := Real.pi_gt_three
    push_neg
    nlinarith
  have hneg : ¬ (Driver.withinMax 5
      (⟨drvAtPickup.user_id, drvAtPickup.full_name, drvAtPickup.rating,
        sqlDistance 0 90 drvAtPickup.current_latitude
          drvAtPickup.current_longitude⟩ : Candidate) = true) := by
    intro h
    unfold Driver.withinMax at h
    have hle := of_decide_eq_true h
    rw [hkey] at hle
    exact hfar hle
  simp only [Driver.getNearestDrivers]
  rw [List.filter_cons_of_pos helig, List.filter_nil, List.map_cons,
    List.map_nil, List.filter_cons_of_neg hneg, List.filter_nil]
  rfl

/-- C4 (code bug): findAndAssignDriver passes (pickupLng, pickupLat) into
getNearestDrivers(latitude, longitude, ...), transposing the pickup
coordinates.  With the pickup at latitude 0, longitude 90 and an eligible
online approved active driver at exactly that point — spec great-circle
distance 0 km, well within maxDistance 5 km — the dispatch call returns the
no-drivers outcome and creates nothing, instead of offering the trip to
that driver first. -/
theorem c4_swapped_coordinates_bug :
    specGreatCircleDistance tdGeo.pickupLat tdGeo.pickupLng
      drvAtPickup.current_latitude drvAtPickup.current_longitude = 0 ∧
    Driver.getNearestDrivers [drvAtPickup] 90 0 "kigali" 5 = [] ∧
    findAndAssignDriver dbGeo tdGeo [] = ⟨some noDriversOutcome, dbGeo, []⟩ := by
  refine ⟨?_, getNearestDrivers_swapped_empty, ?_⟩
  · have h90 : radians 90 = Real.pi / 2 := by unfold radians; ring
    have h0 : radians 0 = 0 := by unfold radians; ring
    show specGreatCircleDistance 0 90 0 90 = 0
    unfold specGreatCircleDistance
    rw [h90, h0]
    simp
  · simp only [findAndAssignDriver]
    have hdg : dbGeo.drivers = [drvAtPickup] := rfl
    have h1 : tdGeo.pickupLng = 90 := rfl
    have h2 : tdGeo.pickupLat = 0 := rfl
    have h3 : tdGeo.region = "kigali" := rfl
    have h4 : tdGeo.maxDistance = 5 := rfl
    rw [hdg, h1, h2, h3, h4, getNearestDrivers_swapped_empty]
    rfl

/-- C9: when the candidate query returns no drivers, findAndAssignDriver
returns the no-drivers outcome at once, with the store unchanged (zero
booking requests created). -/
theorem c9_no_drivers_immediate :
    ∀ (db : DB) (td : TripData) (envs : List AttemptEnv),
      Driver.getNearestDrivers db.drivers td.pickupLng td.pickupLat
        td.region td.maxDistance = [] →
      findAndAssignDriver db td envs = ⟨some noDriversOutcome, db, []⟩ := by
  intro db td envs h
  simp only [findAndAssignDriver]
  rw [h]
  rfl

/-- C9 witness: the empty store has no drivers, so dispatch returns the
no-drivers outcome and the store is untouched. -/
theorem c9_no_drivers_immediate_witness :
    findAndAssignDriver dbEmpty tdZero [] =
      ⟨some noDriversOutcome, dbEmpty, []⟩ :=
  c9_no_drivers_immediate dbEmpty tdZero [] rfl

/-- C10 witness: the trip is cancelled and bound to driver 77, yet accepting
the rejected request rebinds it to driver 5 with status accepted. -/
theorem c10_trip_overwrite_witness :
    tripStatusOf dbCancelledTrip 10 = some "cancelled" ∧
    (dbCancelledTrip.trips.find? fun t => t.id == 10).map
      (fun t => t.driver_id) = some (some 77) ∧
    ∃ pr, DispatchService.acceptBooking dbCancelledTrip 1 5 = .ok pr ∧
      ∀ t ∈ pr.2.trips, t.id = pr.1.trip_id →
        t.driver_id = some 5 ∧ t.status = "accepted" :=
  ⟨by decide, by decide,
    c10_trip_overwrite dbCancelledTrip 1 5 reqRejected (by decide) rfl rfl⟩

/-- One erroring poll tick only advances the loop. -/
lemma waitLoop_err_cons (rid timeout : Nat) (ts : List Tick) (db : DB)
    (tick : Nat) :
    (waitLoop rid timeout (errTick :: ts) db tick).resolved =
      (waitLoop rid timeout ts {db with now := db.now + 1000}
        (tick + 1)).resolved :=
  rfl

/-- Environment actions read and write only the request rows and the clock:
two stores agreeing on both still agree after any action. -/
lemma applyEnv_req_now (a : EnvAct) (db1 db2 : DB)
    (hreq : db1.requests = db2.requests) (hnow : db1.now = db2.now) :
    (applyEnv a db1).requests = (applyEnv a db2).requests ∧
    (applyEnv a db1).now = (applyEnv a db2).now := by
  cases a with
  | idle => exact ⟨hreq, hnow⟩
  | accept rid did =>
    simp only [applyEnv, acceptDB, DispatchService.acceptBooking, hreq, hnow]
    cases (db2.requests.map (DispatchService.acceptUpd rid did db2.now)).filter
        (fun r => r.id == rid && r.driver_id == did) with
    | nil => exact ⟨hreq, hnow⟩
    | cons q rest => exact ⟨rfl, rfl⟩
  | reject rid did reason =>
    simp only [applyEnv, rejectDB, DispatchService.rejectBooking, hreq, hnow]
    cases (db2.requests.map
        (DispatchService.rejectUpd rid did reason db2.now)).filter
        (fun r => r.id == rid && r.driver_id == did) with
    | nil => exact ⟨hreq, hnow⟩
    | cons q rest => exact ⟨rfl, rfl⟩
  | expire rid =>
    constructor
    · show (DispatchService.expiryMark db1 rid).requests =
        (DispatchService.expiryMark db2 rid).requests
      simp only [DispatchService.expiryMark, hreq]
    · exact hnow
  | cancelTrip tid => exact ⟨hreq, hnow⟩

/-- The wait reads only the request rows and the clock: its resolution,
duration and final request rows are identical on two stores that agree on
both. -/
lemma waitLoop_req_now (rid timeout : Nat) :
    ∀ (ts : List Tick) (db1 db2 : DB) (tick : Nat),
      db1.requests = db2.requests → db1.now = db2.now →
      (waitLoop rid timeout ts db1 tick).resolved =
        (waitLoop rid timeout ts db2 tick).resolved ∧
      (waitLoop rid timeout ts db1 tick).ticks =
        (waitLoop rid timeout ts db2 tick).ticks := by
  intro ts
  induction ts with
  | nil => intro db1 db2 tick h1 h2; exact ⟨rfl, rfl⟩
  | cons t ts ih =>
    intro db1 db2 tick hreq hnow
    have hbump : ({db1 with now := db1.now + 1000} : DB).now =
        ({db2 with now := db2.now + 1000} : DB).now := by
      simp [hnow]
    obtain ⟨hreq1, hnow1⟩ := applyEnv_req_now t.act
      {db1 with now := db1.now + 1000} {db2 with now := db2.now + 1000}
      hreq hbump
    have hfind : findRequest (applyEnv t.act {db1 with now := db1.now + 1000})
        rid = findRequest (applyEnv t.act {db2 with now := db2.now + 1000})
        rid := by
      unfold findRequest
      rw [hreq1]
    simp only [waitLoop]
    by_cases hp : t.pollErr = true
    · rw [if_pos hp, if_pos hp]
      exact ih _ _ (tick + 1) hreq1 hnow1
    · rw [if_neg hp, if_neg hp, hfind]
      cases hfr : findRequest (applyEnv t.act
          {db2 with now := db2.now + 1000}) rid with
      | none => exact ⟨rfl, rfl⟩
      | some r =>
        dsimp only
        by_cases ha : r.status = .accepted
        · rw [if_pos ha, if_pos ha]
          exact ⟨rfl, rfl⟩
        · rw [if_neg ha, if_neg ha]
          by_cases hj : r.status = .rejected
          · rw [if_pos hj, if_pos hj]
            exact ⟨rfl, rfl⟩
          · rw [if_neg hj, if_neg hj]
            by_cases ht : timeout < 1000 * tick
            · rw [if_pos ht, if_pos ht]
              exact ⟨rfl, rfl⟩
            · rw [if_neg ht, if_neg ht]
              exact ih _ _ (tick + 1) hreq1 hnow1

/-- The raw expiry UPDATE is the expire environment action. -/
lemma expiryMark_eq (db : DB) (rid : Nat) :
    DispatchService.expiryMark db rid = applyEnv (.expire rid) db :=
  rfl

/-- Environment actions never change the driver_id column sequence of the
request table. -/
lemma applyEnv_driverIds (a : EnvAct) (db : DB) :
    (applyEnv a db).requests.map (fun r => r.driver_id) =
      db.requests.map (fun r => r.driver_id) := by
  obtain ⟨g, hg, hpt⟩ := applyEnv_shape a db
  rw [hg, List.map_map]
  exact List.map_congr_left fun r _ => (hpt r).2.2.1

/-- The wait never changes the driver_id column sequence. -/
lemma waitLoop_driverIds (rid timeout : Nat) :
    ∀ (ts : List Tick) (db : DB) (tick : Nat),
      (waitLoop rid timeout ts db tick).db.requests.map
          (fun r => r.driver_id) =
        db.requests.map (fun r => r.driver_id) := by
  intro ts
  induction ts with
  | nil => intro db tick; rfl
  | cons t ts ih =>
    intro db tick
    have henv := applyEnv_driverIds t.act {db with now := db.now + 1000}
    simp only [waitLoop]
    by_cases hp : t.pollErr = true
    · rw [if_pos hp]
      dsimp only
      rw [ih, henv]
    · rw [if_neg hp]
      cases hfr : findRequest
          (applyEnv t.act {db with now := db.now + 1000}) rid with
      | none => exact henv
      | some r =>
        dsimp only
        by_cases ha : r.status = .accepted
        · rw [if_pos ha]; exact henv
        · rw [if_neg ha]
          by_cases hj : r.status = .rejected
          · rw [if_pos hj]; exact henv
          · rw [if_neg hj]
            by_cases ht : timeout < 1000 * tick
            · rw [if_pos ht]
              dsimp only
              rw [expiryMark_eq, applyEnv_driverIds, henv]
            · rw [if_neg ht]
              dsimp only
              rw [ih, henv]

/-- A non-failing attempt appends exactly one request, carrying the
attempted driver id, and the wait leaves the driver_id column sequence
unchanged. -/
lemma sendAssignmentRequest_driverIds (db : DB) (tid did : Nat)
    (env : AttemptEnv) (h : env.insertFails = false) :
    (sendAssignmentRequest db tid did env).db.requests.map
        (fun r => r.driver_id) =
      db.requests.map (fun r => r.driver_id) ++ [did] := by
  simp only [sendAssignmentRequest]
  rw [if_neg (by simp [h])]
  dsimp only
  rw [waitLoop_driverIds]
  simp [mkRequest]

/-- Each attempt either leaves the request table unchanged (failed insert)
or appends the attempted driver. -/
lemma sendAssignmentRequest_ids_cases (db : DB) (tid did : Nat)
    (env : AttemptEnv) :
    (sendAssignmentRequest db tid did env).db.requests.map
        (fun r => r.driver_id) = db.requests.map (fun r => r.driver_id) ∨
    (sendAssignmentRequest db tid did env).db.requests.map
        (fun r => r.driver_id) =
      db.requests.map (fun r => r.driver_id) ++ [did] := by
  by_cases h : env.insertFails = true
  · left
    simp only [sendAssignmentRequest]
    rw [if_pos h]
  · right
    exact sendAssignmentRequest_driverIds db tid did env (by simpa using h)

/-- Each attempt grows the request table by at most one row. -/
lemma sendAssignmentRequest_growth (db : DB) (tid did : Nat)
    (env : AttemptEnv) :
    (sendAssignmentRequest db tid did env).db.requests.length ≤
      db.requests.length + 1 := by
  rcases sendAssignmentRequest_ids_cases db tid did env with hs | hs <;>
    (have hl := congrArg List.length hs
     simp only [List.length_map, List.length_append, List.length_singleton]
       at hl
     omega)

/-- The loop grows the request table by at most one row per attempt. -/
lemma assignLoop_growth (tid : Nat) :
    ∀ (zl : List (Candidate × AttemptEnv)) (db : DB),
      (assignLoop tid zl db).db.requests.length ≤
        db.requests.length + zl.length := by
  intro zl
  induction zl with
  | nil => intro db; simp [assignLoop]
  | cons p rest ih =>
    intro db
    obtain ⟨c, env⟩ := p
    have hsend := sendAssignmentRequest_growth db tid c.user_id env
    simp only [assignLoop]
    cases hacc : (sendAssignmentRequest db tid c.user_id env).accepted with
    | none =>
      dsimp only
      simp only [List.length_cons]
      omega
    | some b =>
      cases b with
      | true =>
        dsimp only
        simp only [List.length_cons]
        omega
      | false =>
        dsimp only
        have := ih (sendAssignmentRequest db tid c.user_id env).db
        simp only [List.length_cons]
        omega

/-- The loop only ever appends to the driver_id column sequence. -/
lemma assignLoop_ids_extend (tid : Nat) :
    ∀ (zl : List (Candidate × AttemptEnv)) (db : DB),
      ∃ t, (assignLoop tid zl db).db.requests.map (fun r => r.driver_id) =
        db.requests.map (fun r => r.driver_id) ++ t := by
  intro zl
  induction zl with
  | nil => intro db; exact ⟨[], by simp [assignLoop]⟩
  | cons p rest ih =>
    intro db
    obtain ⟨c, env⟩ := p
    simp only [assignLoop]
    cases hacc : (sendAssignmentRequest db tid c.user_id env).accepted with
    | none =>
      dsimp only
      rcases sendAssignmentRequest_ids_cases db tid c.user_id env with hs | hs
      · exact ⟨[], by rw [hs, List.append_nil]⟩
      · exact ⟨[c.user_id], hs⟩
    | some b =>
      cases b with
      | true =>
        dsimp only
        rcases sendAssignmentRequest_ids_cases db tid c.user_id env with hs | hs
        · exact ⟨[], by rw [hs, List.append_nil]⟩
        · exact ⟨[c.user_id], hs⟩
      | false =>
        dsimp only
        obtain ⟨t1, ht1⟩ :=
          ih (sendAssignmentRequest db tid c.user_id env).db
        rcases sendAssignmentRequest_ids_cases db tid c.user_id env with hs | hs
        · exact ⟨t1, by rw [ht1, hs]⟩
        · refine ⟨c.user_id :: t1, ?_⟩
          rw [ht1, hs, List.append_assoc]
          rfl

/-- When no insert fails, the driver ids of the created requests, in table
order, are a prefix of the attempted candidates' user ids in list order. -/
lemma assignLoop_created_prefix (tid : Nat) :
    ∀ (zl : List (Candidate × AttemptEnv)) (db : DB),
      (∀ p ∈ zl, p.2.insertFails = false) →
      ((assignLoop tid zl db).db.requests.map (fun r => r.driver_id)).drop
          db.requests.length <+:
        zl.map (fun p => p.1.user_id) := by
  intro zl
  induction zl with
  | nil =>
    intro db _
    rw [show (assignLoop tid [] db).db = db from rfl]
    rw [List.drop_eq_nil_of_le (by rw [List.length_map])]
    exact List.nil_prefix
  | cons p rest ih =>
    intro db h
    obtain ⟨c, env⟩ := p
    have henv : env.insertFails = false := h (c, env) (List.mem_cons_self _ _)
    have hs := sendAssignmentRequest_driverIds db tid c.user_id env henv
    have hlen : (db.requests.map (fun r => r.driver_id)).length =
        db.requests.length := List.length_map _ _
    simp only [assignLoop]
    cases hacc : (sendAssignmentRequest db tid c.user_id env).accepted with
    | none =>
      dsimp only
      rw [hs, List.drop_left' hlen, List.map_cons]
      exact ⟨_, rfl⟩
    | some b =>
      cases b with
      | true =>
        dsimp only
        rw [hs, List.drop_left' hlen, List.map_cons]
        exact ⟨_, rfl⟩
      | false =>
        dsimp only
        obtain ⟨t1, ht1⟩ :=
          assignLoop_ids_extend tid rest
            (sendAssignmentRequest db tid c.user_id env).db
        have hslen :
            (sendAssignmentRequest db tid c.user_id env).db.requests.length =
              db.requests.length + 1 := by
          have hl := congrArg List.length hs
          simp only [List.length_map, List.length_append,
            List.length_singleton] at hl
          omega
        have ihr := ih (sendAssignmentRequest db tid c.user_id env).db
          (fun q hq => h q (List.mem_cons_of_mem _ hq))
        rw [ht1, hs, hslen] at ihr
        rw [List.drop_left' (by rw [List.length_append, hlen,
          List.length_singleton])] at ihr
        rw [ht1, hs, List.append_assoc, List.drop_left' hlen, List.map_cons]
        obtain ⟨s, hsfx⟩ := ihr
        refine ⟨s, ?_⟩
        rw [← hsfx]
        rfl

/-- A completed loop that reports success stopped at the first accepted
attempt: the list splits as pre ++ (c, env) :: rest, the run on pre alone
ends with the no-acceptance outcome, and the result is the assigned outcome
of c. -/
lemma assignLoop_success (tid : Nat) :
    ∀ (zl : List (Candidate × AttemptEnv)) (db : DB) (o : Outcome),
      (assignLoop tid zl db).outcome = some o → o.success = true →
      ∃ pre c env rest, zl = pre ++ (c, env) :: rest ∧
        o = assignedOutcome c ∧
        (assignLoop tid pre db).outcome = some noAcceptOutcome := by
  intro zl
  induction zl with
  | nil =>
    intro db o ho hs
    have h2 : some noAcceptOutcome = some o := ho
    injection h2 with h2
    rw [← h2] at hs
    exact absurd hs (by simp [noAcceptOutcome])
  | cons p rest ih =>
    intro db o ho hs
    obtain ⟨c, env⟩ := p
    simp only [assignLoop] at ho
    cases hacc : (sendAssignmentRequest db tid c.user_id env).accepted with
    | none =>
      rw [hacc] at ho
      dsimp only at ho
      exact absurd ho (by simp)
    | some b =>
      cases b with
      | true =>
        rw [hacc] at ho
        dsimp only at ho
        injection ho with ho
        exact ⟨[], c, env, rest, rfl, ho.symm, rfl⟩
      | false =>
        rw [hacc] at ho
        dsimp only at ho
        obtain ⟨pre1, c1, env1, rest1, hzl, hoeq, hpre⟩ :=
          ih (sendAssignmentRequest db tid c.user_id env).db o ho hs
        refine ⟨(c, env) :: pre1, c1, env1, rest1,
          by rw [hzl, List.cons_append], hoeq, ?_⟩
        simp only [assignLoop]
        rw [hacc]
        dsimp only
        exact hpre

/-- A completed loop that reports failure returns exactly the
no-acceptance outcome. -/
lemma assignLoop_failure (tid : Nat) :
    ∀ (zl : List (Candidate × AttemptEnv)) (db : DB) (o : Outcome),
      (assignLoop tid zl db).outcome = some o → o.success = false →
      o = noAcceptOutcome := by
  intro zl
  induction zl with
  | nil =>
    intro db o ho _
    have h2 : some noAcceptOutcome = some o := ho
    injection h2 with h2
    exact h2.symm
  | cons p rest ih =>
    intro db o ho hs
    obtain ⟨c, env⟩ := p
    simp only [assignLoop] at ho
    cases hacc : (sendAssignmentRequest db tid c.user_id env).accepted with
    | none =>
      rw [hacc] at ho
      dsimp only at ho
      exact absurd ho (by simp)
    | some b =>
      cases b with
      | true =>
        rw [hacc] at ho
        dsimp only at ho
        injection ho with ho
        rw [← ho] at hs
        exact absurd hs (by simp [assignedOutcome])
      | false =>
        rw [hacc] at ho
        dsimp only at ho
        exact ih (sendAssignmentRequest db tid c.user_id env).db o ho hs

/-- C5: dispatch creates at most min(L, MAX_ASSIGNMENT_ATTEMPTS = 3)
booking requests for a candidate list of length L; when no insert fails,
the created requests carry, in creation order, the user ids of a prefix of
the attempted candidates; a successful run stopped at the first accepted
attempt and returns the assigned outcome carrying that driver's id; an
unsuccessful completed run returns the unable-to-find outcome. -/
theorem c5_attempt_bound_and_first_accept :
    (∀ (db : DB) (td : TripData) (envs : List AttemptEnv),
      (findAndAssignDriver db td envs).db.requests.length ≤
        db.requests.length +
          min (Driver.getNearestDrivers db.drivers td.pickupLng td.pickupLat
            td.region td.maxDistance).length MAX_ASSIGNMENT_ATTEMPTS) ∧
    (∀ (tripId : Nat) (zl : List (Candidate × AttemptEnv)) (db : DB),
      (∀ p ∈ zl, p.2.insertFails = false) →
      ((assignLoop tripId zl db).db.requests.map (fun r => r.driver_id)).drop
          db.requests.length <+:
        zl.map (fun p => p.1.user_id)) ∧
    (∀ (tripId : Nat) (zl : List (Candidate × AttemptEnv)) (db : DB)
      (o : Outcome),
      (assignLoop tripId zl db).outcome = some o → o.success = true →
      ∃ pre c env rest, zl = pre ++ (c, env) :: rest ∧
        o = assignedOutcome c ∧
        (assignLoop tripId pre db).outcome = some noAcceptOutcome) ∧
    (∀ (tripId : Nat) (zl : List (Candidate × AttemptEnv)) (db : DB)
      (o : Outcome),
      (assignLoop tripId zl db).outcome = some o → o.success = false →
      o = noAcceptOutcome) := by
  refine ⟨?_, assignLoop_created_prefix, assignLoop_success,
    assignLoop_failure⟩
  intro db td envs
  simp only [findAndAssignDriver]
  split
  · exact Nat.le_add_right _ _
  · have hg := assignLoop_growth td.tripId
      (((Driver.getNearestDrivers db.drivers td.pickupLng td.pickupLat
        td.region td.maxDistance).take MAX_ASSIGNMENT_ATTEMPTS).zip envs) db
    rw [List.length_zip, List.length_take] at hg
    simp only [MAX_ASSIGNMENT_ATTEMPTS] at hg ⊢
    omega

/-- C5 witness: the four parts applied at concrete runs — the empty store
with zero candidates; a single candidate whose driver accepts at the first
poll; and the empty candidate list producing the unable-to-find outcome. -/
theorem c5_attempt_bound_and_first_accept_witness :
    (findAndAssignDriver dbEmpty tdZero []).db.requests.length ≤
      dbEmpty.requests.length +
        min (Driver.getNearestDrivers dbEmpty.drivers tdZero.pickupLng
          tdZero.pickupLat tdZero.region tdZero.maxDistance).length
          MAX_ASSIGNMENT_ATTEMPTS ∧
    (((assignLoop 42 [(candA, envAcceptFirst)] dbTrip9).db.requests.map
        (fun r => r.driver_id)).drop dbTrip9.requests.length <+:
      [(candA, envAcceptFirst)].map (fun p => p.1.user_id)) ∧
    (∃ pre c env rest,
      [(candA, envAcceptFirst)] = pre ++ (c, env) :: rest ∧
      assignedOutcome candA = assignedOutcome c ∧
      (assignLoop 42 pre dbTrip9).outcome = some noAcceptOutcome) ∧
    noAcceptOutcome = noAcceptOutcome :=
  ⟨c5_attempt_bound_and_first_accept.1 dbEmpty tdZero [],
    c5_attempt_bound_and_first_accept.2.1 42 [(candA, envAcceptFirst)]
      dbTrip9 (by decide),
    c5_attempt_bound_and_first_accept.2.2.1 42 [(candA, envAcceptFirst)]
      dbTrip9 (assignedOutcome candA) rfl rfl,
    c5_attempt_bound_and_first_accept.2.2.2 42 [] dbTrip9 noAcceptOutcome
      rfl rfl⟩

/-- The id column of a returning acceptBooking is unchanged. -/
lemma acceptBooking_ok_nextId (db : DB) (rid did : Nat)
    (pr : BookingRequest × DB)
    (h : DispatchService.acceptBooking db rid did = .ok pr) :
    pr.2.nextRequestId = db.nextRequestId := by
  simp only [DispatchService.acceptBooking] at h
  revert h
  cases hfil : (db.requests.map
      (DispatchService.acceptUpd rid did db.now)).filter
      (fun r => r.id == rid && r.driver_id == did) with
  | nil => intro h; exact absurd h (by simp)
  | cons q rest =>
    intro h
    injection h with h2
    rw [← h2]

/-- The id column of a returning rejectBooking is unchanged. -/
lemma rejectBooking_ok_nextId (db : DB) (rid did : Nat) (reason : String)
    (pr : BookingRequest × DB)
    (h : DispatchService.rejectBooking db rid did reason = .ok pr) :
    pr.2.nextRequestId = db.nextRequestId := by
  simp only [DispatchService.rejectBooking] at h
  revert h
  cases hfil : (db.requests.map
      (DispatchService.rejectUpd rid did reason db.now)).filter
      (fun r => r.id == rid && r.driver_id == did) with
  | nil => intro h; exact absurd h (by simp)
  | cons q rest =>
    intro h
    injection h with h2
    rw [← h2]

/-- Environment actions never change the id column sequence. -/
lemma applyEnv_ids (a : EnvAct) (db : DB) :
    (applyEnv a db).requests.map (fun r => r.id) =
      db.requests.map (fun r => r.id) := by
  obtain ⟨g, hg, hpt⟩ := applyEnv_shape a db
  rw [hg, List.map_map]
  exact List.map_congr_left fun r _ => (hpt r).1

/-- Environment actions never change the fresh-id counter. -/
lemma applyEnv_nextId (a : EnvAct) (db : DB) :
    (applyEnv a db).nextRequestId = db.nextRequestId := by
  cases a with
  | idle => rfl
  | accept rid did =>
    show (acceptDB db rid did).nextRequestId = _
    unfold acceptDB
    cases hab : DispatchService.acceptBooking db rid did with
    | error e => rfl
    | ok pr => exact acceptBooking_ok_nextId db rid did pr hab
  | reject rid did reason =>
    show (rejectDB db rid did reason).nextRequestId = _
    unfold rejectDB
    cases hab : DispatchService.rejectBooking db rid did reason with
    | error e => rfl
    | ok pr => exact rejectBooking_ok_nextId db rid did reason pr hab
  | expire rid => rfl
  | cancelTrip tid => rfl

/-- Environment actions preserve id well-formedness. -/
lemma applyEnv_uniq (a : EnvAct) (db : DB) (hu : UniqIds db) :
    UniqIds (applyEnv a db) := by
  obtain ⟨g, hg, hpt⟩ := applyEnv_shape a db
  constructor
  · rw [applyEnv_ids]
    exact hu.1
  · intro r hr
    rw [applyEnv_nextId]
    rw [hg] at hr
    obtain ⟨r0, hr0, rfl⟩ := List.mem_map.mp hr
    rw [(hpt r0).1]
    exact hu.2 r0 hr0

/-- Environment actions preserve the only-pending-request property. -/
lemma applyEnv_onlyPending (tid rid : Nat) (a : EnvAct) (db : DB)
    (h : onlyPending tid rid db) : onlyPending tid rid (applyEnv a db) := by
  obtain ⟨g, hg, hpt⟩ := applyEnv_shape a db
  intro r hr htrip hpend
  rw [hg] at hr
  obtain ⟨r0, hr0, rfl⟩ := List.mem_map.mp hr
  obtain ⟨hid, htr, hdr, hpd⟩ := hpt r0
  rw [hid]
  refine h r0 hr0 ?_ (hpd hpend)
  rw [← htr]
  exact htrip

/-- A request table with pairwise-distinct ids whose pending rows of the
trip all carry one fixed id has at most one such row. -/
lemma countP_le_one_of_unique (tid rid : Nat) :
    ∀ (l : List BookingRequest),
      (l.map (fun r => r.id)).Nodup →
      (∀ r ∈ l, r.trip_id = tid → r.status = .pending → r.id = rid) →
      l.countP (fun r =>
        decide (r.trip_id = tid ∧ r.status = RequestStatus.pending)) ≤ 1 := by
  intro l
  induction l with
  | nil => intro _ _; simp
  | cons r l ih =>
    intro hn h
    rw [List.map_cons, List.nodup_cons] at hn
    rw [List.countP_cons]
    by_cases hp : r.trip_id = tid ∧ r.status = .pending
    · have hz : l.countP (fun r =>
          decide (r.trip_id = tid ∧ r.status = RequestStatus.pending)) = 0 := by
        rw [List.countP_eq_zero]
        intro q hq hqp
        simp only [decide_eq_true_eq] at hqp
        have hqr : q.id = rid := h q (List.mem_cons_of_mem _ hq) hqp.1 hqp.2
        have hrr : r.id = rid := h r (List.mem_cons_self _ _) hp.1 hp.2
        refine hn.1 ?_
        rw [hrr, ← hqr]
        exact List.mem_map_of_mem _ hq
      rw [hz]
      simp [hp.1, hp.2]
    · have hrec := ih hn.2 fun q hq => h q (List.mem_cons_of_mem _ hq)
      simp only [hp]
      simpa using hrec

/-- At most one pending request of the trip under the two invariants. -/
lemma pending_le_one (tid rid : Nat) (db : DB) (hu : UniqIds db)
    (hp : onlyPending tid rid db) : pendingForTrip db tid ≤ 1 :=
  countP_le_one_of_unique tid rid db.requests hu.1 hp

/-- Once the request with the distinguished id is non-pending, the trip has
no pending request at all. -/
lemma pending_zero_of_resolved (tid rid : Nat) (db : DB)
    (hp : onlyPending tid rid db)
    (hr : ∀ r ∈ db.requests, r.id = rid → r.status ≠ .pending) :
    pendingForTrip db tid = 0 := by
  unfold pendingForTrip
  rw [List.countP_eq_zero]
  intro q hq hqp
  simp only [decide_eq_true_eq] at hqp
  exact hr q hq (hp q hq hqp.1 hqp.2) hqp.2

/-- A trip with no pending request has every row of the trip non-pending. -/
lemma no_pending_of_zero (tid : Nat) (db : DB)
    (h : pendingForTrip db tid = 0) :
    ∀ r ∈ db.requests, r.trip_id = tid → r.status ≠ .pending := by
  unfold pendingForTrip at h
  rw [List.countP_eq_zero] at h
  intro r hr htr hst
  exact h r hr (by simp [htr, hst])

/-- Through every tick of the wait, id well-formedness and the
only-pending-request property are maintained, and when the wait resolves,
the watched request is no longer pending. -/
lemma waitLoop_inv (tid rid timeout : Nat) :
    ∀ (ts : List Tick) (db : DB) (tick : Nat),
      UniqIds db → onlyPending tid rid db →
      (∀ db' ∈ (waitLoop rid timeout ts db tick).trace,
        UniqIds db' ∧ onlyPending tid rid db') ∧
      UniqIds (waitLoop rid timeout ts db tick).db ∧
      onlyPending tid rid (waitLoop rid timeout ts db tick).db ∧
      (∀ b, (waitLoop rid timeout ts db tick).resolved = some b →
        ∀ r ∈ (waitLoop rid timeout ts db tick).db.requests, r.id = rid →
          r.status ≠ .pending) := by
  intro ts
  induction ts with
  | nil =>
    intro db tick hu hp
    refine ⟨by simp [waitLoop], hu, hp, ?_⟩
    intro b hb
    exact absurd hb (by simp [waitLoop])
  | cons t ts ih =>
    intro db tick hu hp
    have hu1 : UniqIds (applyEnv t.act {db with now := db.now + 1000}) :=
      applyEnv_uniq t.act _ hu
    have hp1 : onlyPending tid rid
        (applyEnv t.act {db with now := db.now + 1000}) :=
      applyEnv_onlyPending tid rid t.act _ hp
    simp only [waitLoop]
    by_cases hpe : t.pollErr = true
    · rw [if_pos hpe]
      dsimp only
      obtain ⟨htr, hud, hpd, hres⟩ :=
        ih (applyEnv t.act {db with now := db.now + 1000}) (tick + 1) hu1 hp1
      refine ⟨?_, hud, hpd, hres⟩
      intro db' hdb'
      rcases List.mem_cons.mp hdb' with heq | hmem
      · rw [heq]; exact ⟨hu1, hp1⟩
      · exact htr db' hmem
    · rw [if_neg hpe]
      cases hfr : findRequest
          (applyEnv t.act {db with now := db.now + 1000}) rid with
      | none =>
        dsimp only
        refine ⟨?_, hu1, hp1, ?_⟩
        · intro db' hdb'
          rw [List.mem_singleton.mp hdb']
          exact ⟨hu1, hp1⟩
        · intro b _ r hr hid
          unfold findRequest at hfr
          have hnone := List.find?_eq_none.mp hfr r hr
          simp only [beq_iff_eq] at hnone
          exact absurd hid hnone
      | some r0 =>
        dsimp only
        have hr0mem : r0 ∈
            (applyEnv t.act {db with now := db.now + 1000}).requests :=
          List.mem_of_find?_eq_some hfr
        have hr0id : r0.id = rid := by
          have := List.find?_some hfr
          simpa using this
        by_cases ha : r0.status = .accepted
        · rw [if_pos ha]
          refine ⟨?_, hu1, hp1, ?_⟩
          · intro db' hdb'
            rw [List.mem_singleton.mp hdb']
            exact ⟨hu1, hp1⟩
          · intro b _ r hr hid
            have hreq : r = r0 := List.inj_on_of_nodup_map hu1.1 hr
              hr0mem (by rw [hid, hr0id])
            rw [hreq, ha]
            simp
        · rw [if_neg ha]
          by_cases hj : r0.status = .rejected
          · rw [if_pos hj]
            refine ⟨?_, hu1, hp1, ?_⟩
            · intro db' hdb'
              rw [List.mem_singleton.mp hdb']
              exact ⟨hu1, hp1⟩
            · intro b _ r hr hid
              have hreq : r = r0 := List.inj_on_of_nodup_map hu1.1 hr
                hr0mem (by rw [hid, hr0id])
              rw [hreq, hj]
              simp
          · rw [if_neg hj]
            by_cases htmo : timeout < 1000 * tick
            · rw [if_pos htmo]
              dsimp only
              have hu2 : UniqIds (DispatchService.expiryMark
                  (applyEnv t.act {db with now := db.now + 1000}) rid) :=
                applyEnv_uniq (.expire rid) _ hu1
              have hp2 : onlyPending tid rid (DispatchService.expiryMark
                  (applyEnv t.act {db with now := db.now + 1000}) rid) :=
                applyEnv_onlyPending tid rid (.expire rid) _ hp1
              refine ⟨?_, hu2, hp2, ?_⟩
              · intro db' hdb'
                rcases List.mem_cons.mp hdb' with heq | hmem
                · rw [heq]; exact ⟨hu1, hp1⟩
                · rw [List.mem_singleton.mp hmem]
                  exact ⟨hu2, hp2⟩
              · intro b _ r hr hid
                simp only [DispatchService.expiryMark] at hr
                obtain ⟨r1, hr1, rfl⟩ := List.mem_map.mp hr
                by_cases hc : r1.id = rid
                · rw [if_pos (by simp [hc])]
                  simp
                · rw [if_neg (by simp [hc])] at hid ⊢
                  exact absurd hid hc
            · rw [if_neg htmo]
              dsimp only
              obtain ⟨htr, hud, hpd, hres⟩ :=
                ih (applyEnv t.act {db with now := db.now + 1000}) (tick + 1)
                  hu1 hp1
              refine ⟨?_, hud, hpd, hres⟩
              intro db' hdb'
              rcases List.mem_cons.mp hdb' with heq | hmem
              · rw [heq]; exact ⟨hu1, hp1⟩
              · exact htr db' hmem

/-- One attempt keeps the pending count of the trip at or below one at
every instant; if its wait resolves, the count is back to zero and ids stay
well-formed. -/
lemma sendAssignmentRequest_inv (tid did : Nat) (db : DB) (env : AttemptEnv)
    (hu : UniqIds db) (h0 : pendingForTrip db tid = 0) :
    (∀ db' ∈ (sendAssignmentRequest db tid did env).trace,
      pendingForTrip db' tid ≤ 1) ∧
    pendingForTrip (sendAssignmentRequest db tid did env).db tid ≤ 1 ∧
    UniqIds (sendAssignmentRequest db tid did env).db ∧
    (∀ b, (sendAssignmentRequest db tid did env).accepted = some b →
      pendingForTrip (sendAssignmentRequest db tid did env).db tid = 0) := by
  by_cases hins : env.insertFails = true
  · simp only [sendAssignmentRequest]
    rw [if_pos hins]
    refine ⟨by simp, ?_, hu, fun b _ => h0⟩
    rw [show (⟨some false, db, []⟩ : AttemptResult).db = db from rfl, h0]
    exact Nat.zero_le 1
  · simp only [sendAssignmentRequest]
    rw [if_neg hins]
    dsimp only [mkRequest]
    have hu1 : UniqIds {db with
        requests := db.requests ++
          [{id := db.nextRequestId, trip_id := tid, driver_id := did,
            status := .pending, expires_at := db.now + 60000,
            created_at := db.now}],
        nextRequestId := db.nextRequestId + 1} := by
      constructor
      · rw [List.map_append, List.nodup_append]
        refine ⟨hu.1, by simp, ?_⟩
        intro a ha hb
        simp only [List.map_cons, List.map_nil, List.mem_singleton] at hb
        obtain ⟨r0, hr0, rfl⟩ := List.mem_map.mp ha
        have hlt := hu.2 r0 hr0
        rw [hb] at hlt
        exact Nat.lt_irrefl _ hlt
      · intro r hr
        rcases List.mem_append.mp hr with hmem | hmem
        · exact Nat.lt_succ_of_lt (hu.2 r hmem)
        · rw [List.mem_singleton.mp hmem]
          exact Nat.lt_succ_self _
    have hp1 : onlyPending tid db.nextRequestId {db with
        requests := db.requests ++
          [{id := db.nextRequestId, trip_id := tid, driver_id := did,
            status := .pending, expires_at := db.now + 60000,
            created_at := db.now}],
        nextRequestId := db.nextRequestId + 1} := by
      intro r hr htr hpd
      rcases List.mem_append.mp hr with hmem | hmem
      · exact absurd hpd (no_pending_of_zero tid db h0 r hmem htr)
      · rw [List.mem_singleton.mp hmem]
    obtain ⟨htr, hud, hpd, hres⟩ := waitLoop_inv tid db.nextRequestId
      ACCEPT_TIMEOUT env.ticks _ 1 hu1 hp1
    refine ⟨?_, pending_le_one tid db.nextRequestId _ hud hpd, hud, ?_⟩
    · intro db' hdb'
      rcases List.mem_cons.mp hdb' with heq | hmem
      · rw [heq]
        exact pending_le_one tid db.nextRequestId _ hu1 hp1
      · obtain ⟨hu2, hp2⟩ := htr db' hmem
        exact pending_le_one tid db.nextRequestId _ hu2 hp2
    · intro b hb
      exact pending_zero_of_resolved tid db.nextRequestId _ hpd (hres b hb)

/-- The candidate loop keeps the pending count of the trip at or below one
at every instant of its trace and in its final store. -/
lemma assignLoop_inv (tid : Nat) :
    ∀ (zl : List (Candidate × AttemptEnv)) (db : DB),
      UniqIds db → pendingForTrip db tid = 0 →
      (∀ db' ∈ (assignLoop tid zl db).trace,
        pendingForTrip db' tid ≤ 1) ∧
      pendingForTrip (assignLoop tid zl db).db tid ≤ 1 := by
  intro zl
  induction zl with
  | nil =>
    intro db hu h0
    refine ⟨by simp [assignLoop], ?_⟩
    rw [show (assignLoop tid [] db).db = db from rfl, h0]
    exact Nat.zero_le 1
  | cons p rest ih =>
    intro db hu h0
    obtain ⟨c, env⟩ := p
    obtain ⟨htr, hle, huA, hzero⟩ :=
      sendAssignmentRequest_inv tid c.user_id db env hu h0
    simp only [assignLoop]
    cases hacc : (sendAssignmentRequest db tid c.user_id env).accepted with
    | none => exact ⟨fun db' hdb' => htr db' hdb', hle⟩
    | some b =>
      cases b with
      | true => exact ⟨fun db' hdb' => htr db' hdb', hle⟩
      | false =>
        dsimp only
        obtain ⟨htr2, hle2⟩ := ih (sendAssignmentRequest db tid c.user_id
          env).db huA (hzero false hacc)
        refine ⟨?_, hle2⟩
        intro db' hdb'
        rcases List.mem_append.mp hdb' with hmem | hmem
        · exact htr db' hmem
        · exact htr2 db' hmem

/-- C6: at every instant of a dispatch flow, at most one booking request of
the trip is pending — over the whole trace of intermediate stores of the
candidate loop (given well-formed request ids and no pending request of the
trip at the start), and likewise for findAndAssignDriver, which creates the
next candidate's request only after the previous one has been observed in a
terminal state (or its creation failed). -/
theorem c6_single_pending_invariant :
    (∀ (tripId : Nat) (zl : List (Candidate × AttemptEnv)) (db : DB),
      UniqIds db → pendingForTrip db tripId = 0 →
      (∀ db' ∈ (assignLoop tripId zl db).trace,
        pendingForTrip db' tripId ≤ 1) ∧
      pendingForTrip (assignLoop tripId zl db).db tripId ≤ 1) ∧
    (∀ (db : DB) (td : TripData) (envs : List AttemptEnv),
      UniqIds db → pendingForTrip db td.tripId = 0 →
      (∀ db' ∈ (findAndAssignDriver db td envs).trace,
        pendingForTrip db' td.tripId ≤ 1) ∧
      pendingForTrip (findAndAssignDriver db td envs).db td.tripId ≤ 1) := by
  refine ⟨assignLoop_inv, ?_⟩
  intro db td envs hu h0
  simp only [findAndAssignDriver]
  split
  · refine ⟨by simp, ?_⟩
    rw [h0]
    exact Nat.zero_le 1
  · exact assignLoop_inv td.tripId _ db hu h0

/-- C6 witness: the invariant applied to a concrete one-candidate run whose
driver accepts at the first poll, and to the empty-store dispatch. -/
theorem c6_single_pending_invariant_witness :
    ((∀ db' ∈ (assignLoop 42 [(candA, envAcceptFirst)] dbTrip9).trace,
      pendingForTrip db' 42 ≤ 1) ∧
      pendingForTrip (assignLoop 42 [(candA, envAcceptFirst)] dbTrip9).db
        42 ≤ 1) ∧
    ((∀ db' ∈ (findAndAssignDriver dbEmpty tdZero []).trace,
      pendingForTrip db' tdZero.tripId ≤ 1) ∧
      pendingForTrip (findAndAssignDriver dbEmpty tdZero []).db
        tdZero.tripId ≤ 1) :=
  ⟨c6_single_pending_invariant.1 42 [(candA, envAcceptFirst)] dbTrip9
      ⟨by decide, by decide⟩ (by decide),
    c6_single_pending_invariant.2 dbEmpty tdZero []
      ⟨by decide, by decide⟩ (by decide)⟩

/-- C7 counterexample: with the store erroring on every poll, the wait on a
pending request is still unresolved after 62 one-second ticks — past the
claimed 60-second timeout plus one poll interval — because an erroring poll
is merely logged and skipped. -/
theorem c7_counterexample :
    (waitLoop 1 ACCEPT_TIMEOUT (List.replicate 62 errTick)
      dbPending 1).resolved = none := by
  decide

/-- C7 (amended): the wait resolves by the 61st one-second poll, marking the
request expired at the deadline, provided the polls reach the store; but a
poll that errors is skipped and retried, so under persistently failing
store queries the wait never resolves — for every number of erroring ticks
the promise is still unresolved. -/
theorem c7_wait_resolution :
    (∀ (n tick rid timeout : Nat) (db : DB),
      (waitLoop rid timeout (List.replicate n errTick) db tick).resolved =
        none) ∧
    ((waitLoop 1 ACCEPT_TIMEOUT (List.replicate 61 quietTick)
        dbPending 1).resolved = some false ∧
      (waitLoop 1 ACCEPT_TIMEOUT (List.replicate 61 quietTick)
        dbPending 1).ticks = 61 ∧
      statusOf (waitLoop 1 ACCEPT_TIMEOUT (List.replicate 61 quietTick)
        dbPending 1).db 1 = some .expired) := by
  constructor
  · intro n
    induction n with
    | zero => intro tick rid timeout db; rfl
    | succ m ih =>
      intro tick rid timeout db
      rw [List.replicate_succ, waitLoop_err_cons]
      exact ih (tick + 1) rid timeout _
  · exact ⟨by decide, by decide, by decide⟩

/-- C8 counterexample: the trip is cancelled during the very first poll
interval of the first attempt, yet the wait runs the full 61 ticks before
resolving, and dispatch then advances to the second candidate, whose
acceptance produces a normal success outcome for driver 6 — there is no
Cancelled outcome and no prompt termination. -/
theorem c8_counterexample :
    tripStatusOf (waitLoop 100 ACCEPT_TIMEOUT envCancelThenWait.ticks
      dbTrip9Req 1).db 9 = some "cancelled" ∧
    (waitLoop 100 ACCEPT_TIMEOUT envCancelThenWait.ticks
      dbTrip9Req 1).ticks = 61 ∧
    (waitLoop 100 ACCEPT_TIMEOUT envCancelThenWait.ticks
      dbTrip9Req 1).resolved = some false ∧
    (assignLoop 9 [(candA, envCancelThenWait), (candB, envAcceptSecond)]
      dbTrip9).outcome.map (fun o => o.success) = some true ∧
    (assignLoop 9 [(candA, envCancelThenWait), (candB, envAcceptSecond)]
      dbTrip9).outcome.bind (fun o => o.driverId) = some 6 := by
  refine ⟨by decide, by decide, by decide, ?_, ?_⟩ <;> decide

/-- C8 (amended): trip cancellation is invisible to the wait — the wait
reads only the booking-request rows, so cancelling the trip changes neither
the value the wait resolves with nor the tick at which it resolves; the
wait runs to its normal resolution and dispatch proceeds as if no
cancellation had happened. -/
theorem c8_cancellation_ignored :
    ∀ (ticks : List Tick) (rid timeout tid tick : Nat) (db : DB),
      (waitLoop rid timeout ticks (cancelTripStatus db tid) tick).resolved =
        (waitLoop rid timeout ticks db tick).resolved ∧
      (waitLoop rid timeout ticks (cancelTripStatus db tid) tick).ticks =
        (waitLoop rid timeout ticks db tick).ticks := by
  intro ticks rid timeout tid tick db
  exact waitLoop_req_now rid timeout ticks _ db tick rfl rfl

end Oniva
